import Mathlib

/-!
Shallow embedding of `src/seasmon_xr/ops/ws2dwcvp.py` (Whittaker filter with
GCV optimization of the smoothing penalty and asymmetric weights).

Modelling conventions:
* float64 samples are modelled as real numbers (`ℝ`); the NaN/Inf validity
  tests of line 34 therefore reduce to the sentinel test (`ℝ` has no NaN/Inf),
  and the final store of the rounded curve into the `int16` output buffer of
  the `guvectorize` signature is abstracted away (the model returns the
  rounded real-valued curve).
* The smoothing operator `ws2d` is imported from `.ws2d` and is not under
  `src/`; the spec declares it an external black box.  It is modelled as an
  explicit function parameter `ws2dF : List ℝ → ℝ → List ℝ → List ℝ`
  (series, penalty, weights ↦ fitted series), carried in `SmParams`.
* `tempNDVI_arr` is an unassigned Python local until the first strict
  improvement of the GCV score; the model initializes the corresponding
  state field `curve` to the all-zero series.  Every concrete scenario
  proved below performs an improvement before the field is read.
-/

namespace WCVP

/-- Validity weight (lines 32-38): weight 0 for a sentinel sample, else 1. -/
noncomputable def validityW (y : List ℝ) (nodata : ℝ) : List ℝ :=
  y.map (fun v => if v = nodata then (0 : ℝ) else 1)

/-- Count of valid samples `n` (lines 32-38). -/
noncomputable def countValid (y : List ℝ) (nodata : ℝ) : ℕ :=
  y.foldr (fun v acc => if v = nodata then acc else acc + 1) 0

/-- Eigenvalues (lines 41-42): `d_eigs = -2 + 2 cos(k π / m)` with the
index-0 entry (algebraically 0) replaced by `1e-15`. -/
noncomputable def dEigs (m : ℕ) : List ℝ :=
  (List.range m).map
    (fun k => if k = 0 then (1e-15 : ℝ) else -2 + 2 * Real.cos (k * Real.pi / m))

/-- `gamma = w_temp / (w_temp + lmda * ((-1 * d_eigs) ** 2))` (line 78). -/
noncomputable def gammaList (w_temp : List ℝ) (lmda : ℝ) (d : List ℝ) : List ℝ :=
  List.zipWith (fun wk dk => wk / (wk + lmda * (-1 * dk) ^ 2)) w_temp d

/-- `tr_H = gamma.sum()` (line 79). -/
noncomputable def trH (w_temp : List ℝ) (lmda : ℝ) (d : List ℝ) : ℝ :=
  (gammaList w_temp lmda d).sum

/-- `wsse = (((w_temp**0.5) * (y - NDVI_smoothed)) ** 2).sum()` (line 80). -/
noncomputable def wsseOf (w_temp y z : List ℝ) : ℝ :=
  (List.zipWith (fun wk yz => (wk ^ (0.5 : ℝ) * yz) ^ 2) w_temp
    (List.zipWith (fun a b => a - b) y z)).sum

/-- `denominator = w_temp.sum() * (1 - tr_H / w_temp.sum()) ** 2` (line 81). -/
noncomputable def gcvDenom (w_temp : List ℝ) (tr : ℝ) : ℝ :=
  w_temp.sum * (1 - tr / w_temp.sum) ^ 2

/-- GCV score of one candidate penalty (lines 76-82). -/
noncomputable def gcvScore (ws2dF : List ℝ → ℝ → List ℝ → List ℝ)
    (y w_temp : List ℝ) (d : List ℝ) (lmda : ℝ) : ℝ :=
  wsseOf w_temp y (ws2dF y lmda w_temp) /
    gcvDenom w_temp (trH w_temp lmda d)

/-- The running Best-GCV record: `gcv_temp` (score, penalty) and
`tempNDVI_arr` (curve of the last strict improvement). -/
structure ScanState where
  best : ℝ × ℝ
  curve : List ℝ

/-- One candidate of the grid scan (lines 74-88): strict-less update of the
running record. -/
noncomputable def scanStep (ws2dF : List ℝ → ℝ → List ℝ → List ℝ)
    (y w_temp : List ℝ) (d : List ℝ) (st : ScanState) (lmda : ℝ) : ScanState :=
  let sc := gcvScore ws2dF y w_temp d lmda
  if sc < st.best.1 then ⟨(sc, lmda), ws2dF y lmda w_temp⟩ else st

/-- The scan over a whole candidate grid (the `for lmda in smoothing` loop). -/
noncomputable def scanGrid (ws2dF : List ℝ → ℝ → List ℝ → List ℝ)
    (y w_temp : List ℝ) (d : List ℝ) (st : ScanState) (grid : List ℝ) : ScanState :=
  grid.foldl (scanStep ws2dF y w_temp d) st

/-- Insertion into a sorted list, for the model of `numpy.median`. -/
noncomputable def sortIns (x : ℝ) : List ℝ → List ℝ
  | [] => [x]
  | b :: l => if x ≤ b then x :: b :: l else b :: sortIns x l

/-- Insertion sort on real lists. -/
noncomputable def sortR (l : List ℝ) : List ℝ :=
  l.foldr sortIns []

/-- `numpy.median`: middle element of the sorted list, or the mean of the
two middle elements for even length. -/
noncomputable def medianL (l : List ℝ) : ℝ :=
  let s := sortR l
  if l.length % 2 = 1 then s.getD (l.length / 2) 0
  else (s.getD (l.length / 2 - 1) 0 + s.getD (l.length / 2) 0) / 2

/-- The robust reweighting update (lines 94-107): Tukey biweight of the
MAD-standardized residual, crushed to 0 beyond the cutoff, then forced to 1
wherever the raw residual is strictly positive. -/
noncomputable def robustUpdate (y fitted w_temp : List ℝ) (s : ℝ) (d : List ℝ)
    (rwOld : List ℝ) (nR : ℝ) : List ℝ :=
  let tr := trH w_temp s d
  let r := List.zipWith (fun a b => a - b) y fitted
  let rSub := (r.zip rwOld).filterMap (fun q => if q.2 ≠ 0 then some q.1 else none)
  let mad := medianL (rSub.map (fun v => |v - medianL rSub|))
  let scale := 1.4826 * mad * Real.sqrt (1 - tr / nR)
  r.map (fun rk =>
    if rk > 0 then (1 : ℝ)
    else if |rk / scale / 4.685| > 1 then 0
    else (1 - (rk / scale / 4.685) ^ 2) ^ 2)

/-- State threaded through the robust iterations. -/
structure RState where
  r_weights : List ℝ
  gcv_temp : ℝ × ℝ
  curve : List ℝ
  history : List (ℝ × ℝ)

/-- Fixed inputs of one invocation of the optimization path. -/
structure SmParams where
  ws2dF : List ℝ → ℝ → List ℝ → List ℝ
  y : List ℝ
  w : List ℝ
  nR : ℝ
  llas : List ℝ
  robust : Bool

/-- Initial robust state: `r_weights` all ones (line 50), `gcv_temp`
seeded with `[1e15, 0]` (line 61) before the loop, empty history. -/
noncomputable def initState (m : ℕ) : RState :=
  ⟨List.replicate m 1, (1e15, 0), List.replicate m 0, []⟩

/-- Candidate grid of iteration `it` (lines 62-71): full grid `10**llas`
unless `it > 1` and the penalty recorded at history index 1 is truthy, in
which case that single penalty. -/
noncomputable def iterGrid (llas : List ℝ) (hist : List (ℝ × ℝ)) (it : ℕ) : List ℝ :=
  let sOpt := if it > 1 then (hist.getD 1 (0, 0)).2 else 0
  if sOpt = 0 then llas.map (fun e => (10 : ℝ) ^ e) else [sOpt]

/-- Fitting weight `w_temp = w * r_weights` (line 73); the same product also
gives `robust_weights` (line 109). -/
noncomputable def wTempOf (w : List ℝ) (st : RState) : List ℝ :=
  List.zipWith (fun a b => a * b) w st.r_weights

/-- One iteration of the robust loop (lines 62-111): grid scan from the
carried record, optional robust reweighting, history append. -/
noncomputable def robustIter (P : SmParams) (it : ℕ) (st : RState) : RState :=
  let d := dEigs P.y.length
  let grid := iterGrid P.llas st.history it
  let w_temp := wTempOf P.w st
  let sc := scanGrid P.ws2dF P.y w_temp d ⟨st.gcv_temp, st.curve⟩ grid
  let rw :=
    if P.robust then robustUpdate P.y sc.curve w_temp sc.best.2 d st.r_weights P.nR
    else st.r_weights
  ⟨rw, sc.best, sc.curve, st.history ++ [sc.best]⟩

/-- State after `k` robust iterations. -/
noncomputable def iterState (P : SmParams) : ℕ → RState
  | 0 => initState P.y.length
  | k + 1 => robustIter P k (iterState P k)

/-- Number of robust iterations (lines 53-56). -/
def rIts (robust : Bool) : ℕ :=
  if robust then 4 else 1

/-- Final optimal penalty (lines 115-118): history index 1 when robust,
else index 0. -/
noncomputable def loptOf (hist : List (ℝ × ℝ)) (robust : Bool) : ℝ :=
  if robust then (hist.getD 1 (0, 0)).2 else (hist.getD 0 (0, 0)).2

/-- Envelope indicator weights (lines 123-130): `p` where the sample exceeds
the current estimate, else `1 - p`. -/
noncomputable def envWa (penv : ℝ) (y z : List ℝ) : List ℝ :=
  List.zipWith (fun yj zj => if yj > zj then penv else 1 - penv) y z

/-- Envelope fitting weights `ww = robust_weights * wa` (line 131). -/
noncomputable def envWw (rw wa : List ℝ) : List ℝ :=
  List.zipWith (fun a b => a * b) rw wa

/-- The asymmetric envelope loop (lines 122-142), fuelled with the pass cap;
returns the last estimate, the last computed `ww`, and the number of passes
performed. -/
noncomputable def envLoop (ws2dF : List ℝ → ℝ → List ℝ → List ℝ)
    (y : List ℝ) (lopt penv : ℝ) (rw : List ℝ) :
    ℕ → List ℝ → List ℝ → ℕ → List ℝ × List ℝ × ℕ
  | 0, z, ww, c => (z, ww, c)
  | fuel + 1, z, ww, c =>
      let ww2 := envWw rw (envWa penv y z)
      let znew := ws2dF y lopt ww2
      let delta := (List.zipWith (fun a b => |a - b|) znew z).sum
      if delta = 0 then (z, ww2, c + 1)
      else envLoop ws2dF y lopt penv rw fuel znew ww2 (c + 1)

/-- `numpy.round_` with 0 decimals: round half to even. -/
noncomputable def npRound (x : ℝ) : ℝ :=
  if Int.fract x = 1 / 2 then
    (if (⌊x⌋ : ℤ) % 2 = 0 then (⌊x⌋ : ℝ) else (⌊x⌋ : ℝ) + 1)
  else ((round x : ℤ) : ℝ)

/-- The optimization path shared verbatim by the two source functions
(lines 44-145 of `ws2dwcvp` and lines 164-270 of `_ws2dwcvp`): robust loop,
penalty selection, envelope loop, one final smoothing call, rounding. -/
noncomputable def optimizeOut (P : SmParams) (penv : ℝ) : List ℝ × ℝ :=
  let m := P.y.length
  let fin := iterState P (rIts P.robust)
  let lopt := loptOf fin.history P.robust
  let rw := wTempOf P.w fin
  let e := envLoop P.ws2dF P.y lopt penv rw 10 (List.replicate m 0) (List.replicate m 0) 0
  ((P.ws2dF P.y lopt e.2.1).map npRound, lopt)

/-- The vectorized entry point `ws2dwcvp` (lines 18-149): derives the
validity weights and count from the sentinel, falls back to the raw series
and penalty 0 when `n ≤ 5`. -/
noncomputable def ws2dwcvpM (ws2dF : List ℝ → ℝ → List ℝ → List ℝ)
    (y : List ℝ) (nodata penv : ℝ) (llas : List ℝ) (robust : Bool) : List ℝ × ℝ :=
  if 5 < countValid y nodata then
    optimizeOut ⟨ws2dF, y, validityW y nodata, (countValid y nodata : ℝ), llas, robust⟩ penv
  else (y, 0)

/-- The scalar variant `_ws2dwcvp` (lines 152-270): takes the weights as an
argument, uses `n = w.sum()`, and has no small-`n` fallback. -/
noncomputable def ws2dwcvpScalarM (ws2dF : List ℝ → ℝ → List ℝ → List ℝ)
    (y w : List ℝ) (penv : ℝ) (llas : List ℝ) (robust : Bool) : List ℝ × ℝ :=
  optimizeOut ⟨ws2dF, y, w, w.sum, llas, robust⟩ penv

/-! Concrete scenario inputs used by witnesses and counterexamples. -/

/-- Scenario A series: six valid zero samples (sentinel `-9999`). -/
noncomputable def yA : List ℝ := [0, 0, 0, 0, 0, 0]

/-- Scenario A fitted curve returned for the all-ones weights
(residuals `(1, -100, 2, 3, 4, -100)`). -/
noncomputable def fitA0 : List ℝ := [-1, 100, -2, -3, -4, 100]

/-- Scenario A fitted curve returned for any other weights
(residuals `(1000, 0, 1000, 1000, 1000, 0)`). -/
noncomputable def fitA1 : List ℝ := [-1000, 0, -1000, -1000, -1000, 0]

/-- Modelled from the spec: the external Smoothing Operator (`ws2d`, not
under `src/`) is a black box whose output is a deterministic length-`m`
fitted series for given series, penalty and weights.  This instance fits
scenario A: a moderate fit under the all-ones weights, a poor fit under any
down-weighted configuration. -/
noncomputable def wsA : List ℝ → ℝ → List ℝ → List ℝ :=
  fun _ _ w => if w = [1, 1, 1, 1, 1, 1] then fitA0 else fitA1

/-- Scenario A parameters, as the vectorized entry point builds them. -/
noncomputable def paramsA : SmParams :=
  ⟨wsA, yA, validityW yA (-9999), (countValid yA (-9999) : ℝ), [0], true⟩

/-- Scenario B series: sentinel `9999` at index 0, six valid samples. -/
noncomputable def yB : List ℝ := [9999, 1, 2, 3, 4, 5, 6]

/-- Scenario B fitted curve (all residuals strictly positive). -/
noncomputable def fitB : List ℝ := [9991, 0, 1, 2, 3, 4, 5]

/-- Modelled from the spec: black-box Smoothing Operator instance for
scenario B, returning a constant fitted series. -/
noncomputable def wsB : List ℝ → ℝ → List ℝ → List ℝ :=
  fun _ _ _ => fitB

/-- Scenario B parameters, as the vectorized entry point builds them. -/
noncomputable def paramsB : SmParams :=
  ⟨wsB, yB, validityW yB 9999, (countValid yB 9999 : ℝ), [0], true⟩

/-- Modelled from the spec: black-box Smoothing Operator instance that
reproduces the series exactly (a perfect interpolant). -/
noncomputable def wsId : List ℝ → ℝ → List ℝ → List ℝ :=
  fun y _ _ => y

/-- Scenario C series: sentinel `9999` at index 0, five valid samples. -/
noncomputable def yC : List ℝ := [9999, 2, 3, 4, 5, 6]

/-- Scenario C parameters, as the scalar variant builds them when handed
the validity mask of `yC`. -/
noncomputable def paramsC : SmParams :=
  ⟨wsId, yC, validityW yC 9999, (validityW yC 9999).sum, [0], false⟩

end WCVP

namespace WCVP

/-! Helper lemmas. -/

theorem validityW_getD_zero :
    ∀ (y : List ℝ) (nodata : ℝ) (i : ℕ), i < y.length → y.getD i 0 = nodata →
      (validityW y nodata).getD i 0 = 0 := by
  intro y nodata
  induction y with
  | nil => intro i hi _; simp at hi
  | cons a l ih =>
      intro i hi hv
      cases i with
      | zero =>
          simp only [List.getD_cons_zero] at hv
          simp only [validityW, List.map_cons, List.getD_cons_zero]
          simp [hv]
      | succ j =>
          simp only [List.getD_cons_succ] at hv
          simp only [validityW, List.map_cons, List.getD_cons_succ]
          exact ih j (by simpa using hi) hv

theorem zipWith_mul_getD_zero :
    ∀ (a b : List ℝ) (i : ℕ), a.getD i 0 = 0 →
      (List.zipWith (fun x y : ℝ => x * y) a b).getD i 0 = 0 := by
  intro a
  induction a with
  | nil => intro b i _; simp
  | cons x l ih =>
      intro b i h
      cases b with
      | nil => simp
      | cons c m =>
          cases i with
          | zero =>
              simp only [List.getD_cons_zero] at h
              simp only [List.zipWith_cons_cons, List.getD_cons_zero, h, zero_mul]
          | succ j =>
              simp only [List.getD_cons_succ] at h
              simp only [List.zipWith_cons_cons, List.getD_cons_succ]
              exact ih m j h

theorem map_getD_of_lt (f : ℝ → ℝ) :
    ∀ (l : List ℝ) (i : ℕ), i < l.length → (l.map f).getD i 0 = f (l.getD i 0) := by
  intro l
  induction l with
  | nil => intro i hi; simp at hi
  | cons a t ih =>
      intro i hi
      cases i with
      | zero => simp
      | succ j =>
          simp only [List.map_cons, List.getD_cons_succ]
          exact ih j (by simpa using hi)

theorem zipWith_sub_getD :
    ∀ (y z : List ℝ) (i : ℕ), i < y.length → i < z.length →
      (List.zipWith (fun a b : ℝ => a - b) y z).getD i 0 = y.getD i 0 - z.getD i 0 := by
  intro y
  induction y with
  | nil => intro z i hi _; simp at hi
  | cons a t ih =>
      intro z i hy hz
      cases z with
      | nil => simp at hz
      | cons c m =>
          cases i with
          | zero => simp
          | succ j =>
              simp only [List.zipWith_cons_cons, List.getD_cons_succ]
              exact ih m j (by simpa using hy) (by simpa using hz)

theorem iterState_history_length (P : SmParams) :
    ∀ k, (iterState P k).history.length = k := by
  intro k
  induction k with
  | zero => simp [iterState, initState]
  | succ n ih => simp [iterState, robustIter, ih]

/-- C1: for every series with at most 5 valid samples the entire
optimization is skipped and the raw series is returned unchanged with
optimal penalty 0. -/
theorem c1_fallback_identity (ws2dF : List ℝ → ℝ → List ℝ → List ℝ)
    (y : List ℝ) (nodata penv : ℝ) (llas : List ℝ) (robust : Bool)
    (h : countValid y nodata ≤ 5) :
    ws2dwcvpM ws2dF y nodata penv llas robust = (y, 0) := by
  unfold ws2dwcvpM
  rw [if_neg (by omega)]

theorem c1_fallback_identity_witness :
    countValid [(1 : ℝ), 2, 3] (-9999) ≤ 5 ∧
      ws2dwcvpM wsId [(1 : ℝ), 2, 3] (-9999) (1 / 2) [0] true = ([(1 : ℝ), 2, 3], 0) :=
  ⟨by norm_num [countValid],
   c1_fallback_identity wsId [(1 : ℝ), 2, 3] (-9999) (1 / 2) [0] true
     (by norm_num [countValid])⟩

/-- C2: the reported optimal penalty is read off a fixed index of the
per-iteration history — index 1 of the four recorded records when
robust=true, index 0 of the single record when robust=false — rather than
being the minimum-score penalty over the whole history. -/
theorem c2_lopt_fixed_index (ws2dF : List ℝ → ℝ → List ℝ → List ℝ)
    (y w : List ℝ) (nR penv : ℝ) (llas : List ℝ) :
    (optimizeOut ⟨ws2dF, y, w, nR, llas, true⟩ penv).2
        = ((iterState ⟨ws2dF, y, w, nR, llas, true⟩ 4).history.getD 1 (0, 0)).2
      ∧ (iterState ⟨ws2dF, y, w, nR, llas, true⟩ 4).history.length = 4
      ∧ (optimizeOut ⟨ws2dF, y, w, nR, llas, false⟩ penv).2
        = ((iterState ⟨ws2dF, y, w, nR, llas, false⟩ 1).history.getD 0 (0, 0)).2
      ∧ (iterState ⟨ws2dF, y, w, nR, llas, false⟩ 1).history.length = 1 := by
  refine ⟨?_, iterState_history_length _ 4, ?_, iterState_history_length _ 1⟩
  · simp [optimizeOut, loptOf, rIts]
  · simp [optimizeOut, loptOf, rIts]

/-- C6: every fitting-weight array handed to the smoothing operator — the
GCV-scan weight `w * r_weights` and the envelope weight
`(w * r_weights) * wa` — is exactly 0 at an invalid sample position, for
every robust state and every envelope pass. -/
theorem c6_invalid_weight_zero (y : List ℝ) (nodata : ℝ) (st : RState)
    (wa : List ℝ) (i : ℕ) (hlen : i < y.length) (hval : y.getD i 0 = nodata) :
    (wTempOf (validityW y nodata) st).getD i 0 = 0 ∧
      (envWw (wTempOf (validityW y nodata) st) wa).getD i 0 = 0 := by
  have h0 : (validityW y nodata).getD i 0 = 0 :=
    validityW_getD_zero y nodata i hlen hval
  have h1 : (wTempOf (validityW y nodata) st).getD i 0 = 0 :=
    zipWith_mul_getD_zero _ _ i h0
  exact ⟨h1, zipWith_mul_getD_zero _ _ i h1⟩

theorem c6_invalid_weight_zero_witness :
    (0 : ℕ) < ([(9999 : ℝ), 1] : List ℝ).length ∧
      ([(9999 : ℝ), 1] : List ℝ).getD 0 0 = 9999 ∧
      (wTempOf (validityW [(9999 : ℝ), 1] 9999) ⟨[5, 5], (0, 0), [], []⟩).getD 0 0 = 0 ∧
      (envWw (wTempOf (validityW [(9999 : ℝ), 1] 9999) ⟨[5, 5], (0, 0), [], []⟩)
        [3, 3]).getD 0 0 = 0 := by
  refine ⟨by norm_num, by norm_num, ?_⟩
  have h := c6_invalid_weight_zero [(9999 : ℝ), 1] 9999 ⟨[5, 5], (0, 0), [], []⟩
      [3, 3] 0 (by norm_num) (by norm_num)
  exact ⟨h.1, h.2⟩

theorem rwUpdate_pos_getD_one (y fitted w_temp : List ℝ) (s : ℝ)
    (d rwOld : List ℝ) (nR : ℝ) (i : ℕ)
    (hiy : i < y.length) (hif : i < fitted.length)
    (hpos : y.getD i 0 - fitted.getD i 0 > 0) :
    (robustUpdate y fitted w_temp s d rwOld nR).getD i 0 = 1 := by
  have hr : i < (List.zipWith (fun a b : ℝ => a - b) y fitted).length := by
    rw [List.length_zipWith]; omega
  simp only [robustUpdate]
  rw [map_getD_of_lt _ _ i hr, zipWith_sub_getD y fitted i hiy hif]
  simp only [if_pos hpos]

/-- C8: in every robustness-weight update, a sample whose raw residual
`y - fitted` is strictly positive gets robustness weight exactly 1,
regardless of its standardized residual. -/
theorem c8_positive_residual_forced_one (y fitted w_temp : List ℝ) (s : ℝ)
    (d rwOld : List ℝ) (nR : ℝ) (i : ℕ)
    (hiy : i < y.length) (hif : i < fitted.length)
    (hpos : y.getD i 0 - fitted.getD i 0 > 0) :
    (robustUpdate y fitted w_temp s d rwOld nR).getD i 0 = 1 :=
  rwUpdate_pos_getD_one y fitted w_temp s d rwOld nR i hiy hif hpos

theorem scanGrid_cons (F : List ℝ → ℝ → List ℝ → List ℝ) (y wt d : List ℝ)
    (st : ScanState) (g : ℝ) (gs : List ℝ) :
    scanGrid F y wt d st (g :: gs) = scanGrid F y wt d (scanStep F y wt d st g) gs := by
  simp [scanGrid]

theorem scanStep_best_fst (F : List ℝ → ℝ → List ℝ → List ℝ) (y wt d : List ℝ)
    (st : ScanState) (l : ℝ) :
    (scanStep F y wt d st l).best.1 = min (gcvScore F y wt d l) st.best.1 := by
  unfold scanStep
  by_cases h : gcvScore F y wt d l < st.best.1
  · rw [if_pos h]; exact (min_eq_left h.le).symm
  · rw [if_neg h]; exact (min_eq_right (not_lt.mp h)).symm

theorem scanGrid_le_init (F : List ℝ → ℝ → List ℝ → List ℝ) (y wt d : List ℝ) :
    ∀ (grid : List ℝ) (st : ScanState),
      (scanGrid F y wt d st grid).best.1 ≤ st.best.1 := by
  intro grid
  induction grid with
  | nil => intro st; simp [scanGrid]
  | cons g gs ih =>
      intro st
      rw [scanGrid_cons]
      exact le_trans (ih _) (by rw [scanStep_best_fst]; exact min_le_right _ _)

theorem scanGrid_best_fst (F : List ℝ → ℝ → List ℝ → List ℝ) (y wt d : List ℝ) :
    ∀ (grid : List ℝ) (st : ScanState),
      (scanGrid F y wt d st grid).best.1 =
        grid.foldl (fun a l => min (gcvScore F y wt d l) a) st.best.1 := by
  intro grid
  induction grid with
  | nil => intro st; simp [scanGrid]
  | cons g gs ih =>
      intro st
      rw [scanGrid_cons, List.foldl_cons, ih, scanStep_best_fst]

theorem foldl_min_le_init (f : ℝ → ℝ) :
    ∀ (L : List ℝ) (a : ℝ), L.foldl (fun x l => min (f l) x) a ≤ a := by
  intro L
  induction L with
  | nil => intro a; simp
  | cons c cs ih =>
      intro a
      rw [List.foldl_cons]
      exact le_trans (ih _) (min_le_right _ _)

theorem foldl_min_split (f : ℝ → ℝ) :
    ∀ (L : List ℝ) (a b : ℝ), a ≤ b →
      L.foldl (fun x l => min (f l) x) a =
        min a (L.foldl (fun x l => min (f l) x) b) := by
  intro L
  induction L with
  | nil => intro a b h; simp [min_eq_left h]
  | cons c cs ih =>
      intro a b h
      rw [List.foldl_cons, List.foldl_cons,
        ih (min (f c) a) (min (f c) b) (min_le_min_left _ h)]
      have hX : cs.foldl (fun x l => min (f l) x) (min (f c) b) ≤ f c :=
        le_trans (foldl_min_le_init f cs (min (f c) b)) (min_le_left _ _)
      rw [min_comm (f c) a, min_assoc]
      rw [min_eq_right hX]

theorem iterState_gcv_le (P : SmParams) :
    ∀ k, (iterState P k).gcv_temp.1 ≤ 1e15 := by
  intro k
  induction k with
  | zero => simp [iterState, initState]
  | succ n ih =>
      show (robustIter P n (iterState P n)).gcv_temp.1 ≤ 1e15
      simp only [robustIter]
      exact le_trans (scanGrid_le_init _ _ _ _ _ _) ih

theorem getD_append_len (l : List (ℝ × ℝ)) (b : ℝ × ℝ) :
    (l ++ [b]).getD l.length (0, 0) = b := by
  induction l with
  | nil => simp
  | cons x t ih => simp [ih]

theorem getD_append_of_len (l : List (ℝ × ℝ)) (b : ℝ × ℝ) (k : ℕ)
    (h : l.length = k) : (l ++ [b]).getD k (0, 0) = b := by
  subst h
  exact getD_append_len l b

/-- C4: within one grid-scan call, the score of the selected record is ≤ the
GCV score of every candidate scanned in that call, and the update comparison
is strictly-less, so a later candidate whose score ties the incumbent never
replaces it. -/
theorem c4_scan_min_first_seen (F : List ℝ → ℝ → List ℝ → List ℝ)
    (y wt d : List ℝ) :
    (∀ (grid : List ℝ) (st : ScanState), ∀ l ∈ grid,
        (scanGrid F y wt d st grid).best.1 ≤ gcvScore F y wt d l)
      ∧ (∀ (st : ScanState) (l : ℝ), gcvScore F y wt d l = st.best.1 →
        scanStep F y wt d st l = st) := by
  constructor
  · intro grid
    induction grid with
    | nil => intro st l hl; simp at hl
    | cons g gs ih =>
        intro st l hl
        rw [scanGrid_cons]
        rcases List.mem_cons.mp hl with h | h
        · subst h
          refine le_trans (scanGrid_le_init _ _ _ _ _ _) ?_
          rw [scanStep_best_fst]
          exact min_le_left _ _
        · exact ih _ l h
  · intro st l h
    unfold scanStep
    rw [if_neg (by rw [h]; exact lt_irrefl _)]

theorem c4_scan_min_first_seen_witness :
    ((1 : ℝ) ∈ ([1] : List ℝ) ∧
      (scanGrid wsId [(1 : ℝ), 2] [1, 1] (dEigs 2) ⟨(7, 0), []⟩ [1]).best.1 ≤
        gcvScore wsId [(1 : ℝ), 2] [1, 1] (dEigs 2) 1) ∧
      (gcvScore wsId [(1 : ℝ), 2] [1, 1] (dEigs 2) 1 = (⟨(0, 5), []⟩ : ScanState).best.1 ∧
        scanStep wsId [(1 : ℝ), 2] [1, 1] (dEigs 2) ⟨(0, 5), []⟩ 1 = ⟨(0, 5), []⟩) := by
  have hsc : gcvScore wsId [(1 : ℝ), 2] [1, 1] (dEigs 2) 1 = 0 := by
    simp [gcvScore, wsId, wsseOf]
  constructor
  · exact ⟨by simp,
      (c4_scan_min_first_seen wsId [(1 : ℝ), 2] [1, 1] (dEigs 2)).1 [1] ⟨(7, 0), []⟩ 1
        (by simp)⟩
  · exact ⟨by rw [hsc],
      (c4_scan_min_first_seen wsId [(1 : ℝ), 2] [1, 1] (dEigs 2)).2 ⟨(0, 5), []⟩ 1
        (by rw [hsc])⟩

/-- C3 (amended): the Best-GCV record is initialized once (score sentinel
1e15) before the robust loop and carried across iterations, so the history
entry recorded at iteration `k` is the minimum of the carried record and the
minimum over iteration `k`'s own scanned candidates, not the minimum over
that iteration's candidates alone. -/
theorem c3_record_carried_min (P : SmParams) (k : ℕ) :
    ((iterState P (k + 1)).history.getD k (0, 0)).1 =
      min ((iterState P k).gcv_temp.1)
        ((scanGrid P.ws2dF P.y (wTempOf P.w (iterState P k)) (dEigs P.y.length)
            ⟨(1e15, 0), List.replicate P.y.length 0⟩
            (iterGrid P.llas (iterState P k).history k)).best.1) := by
  have hlen := iterState_history_length P k
  show ((robustIter P k (iterState P k)).history.getD k (0, 0)).1 = _
  simp only [robustIter]
  rw [getD_append_of_len _ _ _ hlen]
  rw [scanGrid_best_fst, scanGrid_best_fst]
  have h15 : (iterState P k).gcv_temp.1 ≤ 1e15 := iterState_gcv_le P k
  exact foldl_min_split _ _ _ _ h15

/-- C5: in the robust loop, iterations 0 and 1 scan the full caller-supplied
grid `10**llas`; every iteration with index > 1 scans the single-element grid
holding the penalty recorded at history index 1, provided that recorded
penalty is nonzero (the source treats a zero recorded penalty as falsy and
rescans the full grid). -/
theorem c5_later_iterations_single_grid (P : SmParams) (k : ℕ) :
    (k ≤ 1 → iterGrid P.llas (iterState P k).history k =
        P.llas.map (fun e => (10 : ℝ) ^ e))
      ∧ (1 < k → ((iterState P k).history.getD 1 (0, 0)).2 ≠ 0 →
        iterGrid P.llas (iterState P k).history k =
          [((iterState P k).history.getD 1 (0, 0)).2]) := by
  constructor
  · intro hk
    unfold iterGrid
    simp [if_neg (show ¬ (1 < k) by omega)]
  · intro hk hne
    unfold iterGrid
    simp only [if_pos hk]
    rw [if_neg hne]

theorem envLoop_passes_le (F : List ℝ → ℝ → List ℝ → List ℝ)
    (y : List ℝ) (lopt penv : ℝ) (rw : List ℝ) :
    ∀ (fuel : ℕ) (z ww : List ℝ) (c : ℕ),
      (envLoop F y lopt penv rw fuel z ww c).2.2 ≤ c + fuel := by
  intro fuel
  induction fuel with
  | zero => intro z ww c; simp [envLoop]
  | succ n ih =>
      intro z ww c
      unfold envLoop
      by_cases h :
          (List.zipWith (fun a b => |a - b|)
            (F y lopt (envWw rw (envWa penv y z))) z).sum = 0
      · rw [if_pos h]
        show c + 1 ≤ c + (n + 1)
        omega
      · rw [if_neg h]
        exact le_trans (ih _ _ _) (by omega)

/-- C9: the envelope loop performs at most 10 passes, the returned curve is
always the rounding of one additional smoothing call performed with the
last-computed combined weights, and on early convergence (zero total
absolute change) the loop stops returning exactly that pass's weights. -/
theorem c9_envelope_final_call (P : SmParams) (penv : ℝ) :
    ((optimizeOut P penv).1 =
      (P.ws2dF P.y (loptOf (iterState P (rIts P.robust)).history P.robust)
        ((envLoop P.ws2dF P.y
            (loptOf (iterState P (rIts P.robust)).history P.robust) penv
            (wTempOf P.w (iterState P (rIts P.robust))) 10
            (List.replicate P.y.length 0) (List.replicate P.y.length 0) 0).2.1)).map
        npRound)
      ∧ (envLoop P.ws2dF P.y
          (loptOf (iterState P (rIts P.robust)).history P.robust) penv
          (wTempOf P.w (iterState P (rIts P.robust))) 10
          (List.replicate P.y.length 0) (List.replicate P.y.length 0) 0).2.2 ≤ 10
      ∧ ∀ (F : List ℝ → ℝ → List ℝ → List ℝ) (y2 : List ℝ) (lo pe : ℝ)
          (rw2 : List ℝ) (fuel : ℕ) (z ww : List ℝ) (c : ℕ),
          (List.zipWith (fun a b => |a - b|)
            (F y2 lo (envWw rw2 (envWa pe y2 z))) z).sum = 0 →
          envLoop F y2 lo pe rw2 (fuel + 1) z ww c =
            (z, envWw rw2 (envWa pe y2 z), c + 1) := by
  refine ⟨by simp [optimizeOut], envLoop_passes_le _ _ _ _ _ 10 _ _ 0, ?_⟩
  intro F y2 lo pe rw2 fuel z ww c h
  unfold envLoop
  rw [if_pos h]

theorem c9_envelope_final_call_witness :
    (List.zipWith (fun a b : ℝ => |a - b|)
        (wsId [(0 : ℝ)] 1 (envWw [0] (envWa (1 / 2) [(0 : ℝ)] [0]))) [(0 : ℝ)]).sum = 0
      ∧ envLoop wsId [(0 : ℝ)] 1 (1 / 2) [0] 1 [0] [9] 0 =
        ([0], envWw [0] (envWa (1 / 2) [(0 : ℝ)] [0]), 1) := by
  have h : (List.zipWith (fun a b : ℝ => |a - b|)
      (wsId [(0 : ℝ)] 1 (envWw [0] (envWa (1 / 2) [(0 : ℝ)] [0]))) [(0 : ℝ)]).sum = 0 := by
    simp [wsId]
  exact ⟨h,
    (c9_envelope_final_call ⟨wsId, [(0 : ℝ)], [1], 1, [0], false⟩ (1 / 2)).2.2
      wsId [(0 : ℝ)] 1 (1 / 2) [0] 0 [0] [9] 0 h⟩

theorem c8_positive_residual_forced_one_witness :
    (0 : ℕ) < ([(5 : ℝ)] : List ℝ).length ∧
      ([(5 : ℝ)] : List ℝ).getD 0 0 - ([(1 : ℝ)] : List ℝ).getD 0 0 > 0 ∧
      (robustUpdate [(5 : ℝ)] [(1 : ℝ)] [1] 1 [1] [1] 6).getD 0 0 = 1 :=
  ⟨by norm_num, by norm_num,
   c8_positive_residual_forced_one [(5 : ℝ)] [(1 : ℝ)] [1] 1 [1] [1] 6 0
     (by norm_num) (by norm_num) (by norm_num)⟩

theorem robustIter_r_weights (P : SmParams) (it : ℕ) (st : RState) :
    (robustIter P it st).r_weights =
      if P.robust then
        robustUpdate P.y
          (scanGrid P.ws2dF P.y (wTempOf P.w st) (dEigs P.y.length)
            ⟨st.gcv_temp, st.curve⟩ (iterGrid P.llas st.history it)).curve
          (wTempOf P.w st)
          (scanGrid P.ws2dF P.y (wTempOf P.w st) (dEigs P.y.length)
            ⟨st.gcv_temp, st.curve⟩ (iterGrid P.llas st.history it)).best.2
          (dEigs P.y.length) st.r_weights P.nR
      else st.r_weights := rfl

theorem robustIter_history (P : SmParams) (it : ℕ) (st : RState) :
    (robustIter P it st).history =
      st.history ++
        [(scanGrid P.ws2dF P.y (wTempOf P.w st) (dEigs P.y.length)
          ⟨st.gcv_temp, st.curve⟩ (iterGrid P.llas st.history it)).best] := rfl

theorem robustIter_gcv_temp (P : SmParams) (it : ℕ) (st : RState) :
    (robustIter P it st).gcv_temp =
      (scanGrid P.ws2dF P.y (wTempOf P.w st) (dEigs P.y.length)
        ⟨st.gcv_temp, st.curve⟩ (iterGrid P.llas st.history it)).best := rfl

theorem robustIter_curve (P : SmParams) (it : ℕ) (st : RState) :
    (robustIter P it st).curve =
      (scanGrid P.ws2dF P.y (wTempOf P.w st) (dEigs P.y.length)
        ⟨st.gcv_temp, st.curve⟩ (iterGrid P.llas st.history it)).curve := rfl

theorem scanGrid_singleton (F : List ℝ → ℝ → List ℝ → List ℝ) (y wt d : List ℝ)
    (st : ScanState) (l : ℝ) :
    scanGrid F y wt d st [l] = scanStep F y wt d st l := by
  simp [scanGrid]

theorem scanStep_eq_pos (F : List ℝ → ℝ → List ℝ → List ℝ) (y wt d : List ℝ)
    (st : ScanState) (l : ℝ) (h : gcvScore F y wt d l < st.best.1) :
    scanStep F y wt d st l = ⟨(gcvScore F y wt d l, l), F y l wt⟩ := by
  unfold scanStep
  rw [if_pos h]

theorem scanStep_eq_neg (F : List ℝ → ℝ → List ℝ → List ℝ) (y wt d : List ℝ)
    (st : ScanState) (l : ℝ) (h : ¬ gcvScore F y wt d l < st.best.1) :
    scanStep F y wt d st l = st := by
  unfold scanStep
  rw [if_neg h]

theorem iterGrid_zero_exp (hist : List (ℝ × ℝ)) (it : ℕ) (hit : ¬ 1 < it) :
    iterGrid [(0 : ℝ)] hist it = [1] := by
  unfold iterGrid
  simp only [if_neg hit]
  simp [Real.rpow_zero]

/-- C7 counterexample: in scenario B the sample at index 0 is invalid
(validity weight 0), yet after the first robustness-weight update of the
pipeline its robustness weight is 1, not 0 (it is initialized to 1 and the
positive-residual forcing applies to it like to any sample). -/
theorem c7_counterexample :
    (validityW yB 9999).getD 0 0 = 0 ∧
      ((iterState paramsB 1).r_weights).getD 0 0 = 1 := by
  constructor
  · norm_num [validityW, yB]
  · have h1 : iterState paramsB 1 = robustIter paramsB 0 (initState paramsB.y.length) := rfl
    rw [h1, robustIter_r_weights]
    rw [if_pos (show paramsB.robust = true from rfl)]
    have hgrid : iterGrid paramsB.llas (initState paramsB.y.length).history 0 = [1] :=
      iterGrid_zero_exp _ 0 (by omega)
    rw [hgrid, scanGrid_singleton]
    by_cases hup :
        gcvScore paramsB.ws2dF paramsB.y
          (wTempOf paramsB.w (initState paramsB.y.length)) (dEigs paramsB.y.length) 1 <
          (⟨(initState paramsB.y.length).gcv_temp,
            (initState paramsB.y.length).curve⟩ : ScanState).best.1
    · rw [scanStep_eq_pos _ _ _ _ _ _ hup]
      exact rwUpdate_pos_getD_one _ _ _ _ _ _ _ 0
        (by norm_num [paramsB, yB])
        (by norm_num [paramsB, wsB, fitB])
        (by norm_num [paramsB, yB, wsB, fitB])
    · rw [scanStep_eq_neg _ _ _ _ _ _ hup]
      exact rwUpdate_pos_getD_one _ _ _ _ _ _ _ 0
        (by norm_num [paramsB, yB])
        (by norm_num [paramsB, initState, yB])
        (by norm_num [paramsB, initState, yB])

/-- C7 (amended): the robustness-weight array itself is not masked at
invalid samples (it starts at 1 there and the biweight or the
positive-residual forcing can set it to a nonzero value); the invariant the
code maintains instead is that the fitting weight `w * r_weights` of an
invalid sample is 0 after every robust iteration. -/
theorem c7_invalid_fitting_weight_zero (P : SmParams) (nodata : ℝ)
    (hw : P.w = validityW P.y nodata) (it : ℕ) (st : RState) (i : ℕ)
    (hlen : i < P.y.length) (hval : P.y.getD i 0 = nodata) :
    (wTempOf P.w (robustIter P it st)).getD i 0 = 0 := by
  apply zipWith_mul_getD_zero
  rw [hw]
  exact validityW_getD_zero P.y nodata i hlen hval

theorem validityW_sum (nodata : ℝ) :
    ∀ (y : List ℝ), (validityW y nodata).sum = (countValid y nodata : ℝ) := by
  intro y
  induction y with
  | nil => simp [validityW, countValid]
  | cons a l ih =>
      by_cases h : a = nodata
      · simp [validityW, countValid, h] at ih ⊢
        exact ih
      · simp [validityW, countValid, h] at ih ⊢
        rw [ih]
        ring

theorem initState_history (m : ℕ) : (initState m).history = [] := rfl

theorem initState_gcv_temp (m : ℕ) : (initState m).gcv_temp = (1e15, 0) := rfl

theorem initState_curve (m : ℕ) : (initState m).curve = List.replicate m 0 := rfl

theorem initState_r_weights (m : ℕ) : (initState m).r_weights = List.replicate m 1 := rfl

theorem optimizeOut_snd (P : SmParams) (penv : ℝ) :
    (optimizeOut P penv).2 = loptOf (iterState P (rIts P.robust)).history P.robust := rfl

theorem gcvScore_yC : gcvScore wsId yC (wTempOf (validityW yC 9999) (initState 6)) (dEigs 6) 1 = 0 := by
  unfold gcvScore
  have hwt : wTempOf (validityW yC 9999) (initState 6) = [0, 1, 1, 1, 1, 1] := by
    norm_num [wTempOf, validityW, yC, initState, List.replicate]
  have hz : wsseOf (wTempOf (validityW yC 9999) (initState 6)) yC (wsId yC 1
      (wTempOf (validityW yC 9999) (initState 6))) = 0 := by
    rw [hwt]
    simp [wsseOf, wsId, yC]
  rw [hz, zero_div]

theorem scalarC_lopt : (ws2dwcvpScalarM wsId yC (validityW yC 9999) (1 / 2) [0] false).2 = 1 := by
  have h0 : (ws2dwcvpScalarM wsId yC (validityW yC 9999) (1 / 2) [0] false).2 =
      loptOf (iterState paramsC 1).history false := rfl
  rw [h0]
  have h1 : iterState paramsC 1 = robustIter paramsC 0 (initState paramsC.y.length) := rfl
  rw [h1]
  unfold loptOf
  rw [if_neg (by simp)]
  rw [robustIter_history]
  have hll : paramsC.llas = [(0 : ℝ)] := rfl
  have hws : paramsC.ws2dF = wsId := rfl
  have hy : paramsC.y = yC := rfl
  have hw : paramsC.w = validityW yC 9999 := rfl
  have hm : yC.length = 6 := rfl
  rw [initState_history, hll, iterGrid_zero_exp _ 0 (by omega), hws, hy, hw, hm]
  rw [initState_gcv_temp, initState_curve, scanGrid_singleton]
  have hup : gcvScore wsId yC (wTempOf (validityW yC 9999) (initState 6)) (dEigs 6) 1 <
      ((⟨(1e15, 0), List.replicate 6 0⟩ : ScanState)).best.1 := by
    rw [gcvScore_yC]
    norm_num
  rw [scanStep_eq_pos _ _ _ _ _ _ hup]
  simp

/-- C10: for series with more than 5 valid samples the vectorized entry
point agrees with the scalar variant called on the derived validity mask
(same rounded curve and same optimal penalty, the int16 store being
abstracted); the scalar variant has no small-n fallback, and on a series
with 5 valid samples the two variants disagree (the scalar variant still
optimizes and reports penalty 1, the vectorized entry point reports 0). -/
theorem c10_scalar_vs_vectorized :
    (∀ (F : List ℝ → ℝ → List ℝ → List ℝ) (y : List ℝ) (nodata penv : ℝ)
        (llas : List ℝ) (robust : Bool),
        5 < countValid y nodata →
        ws2dwcvpM F y nodata penv llas robust =
          ws2dwcvpScalarM F y (validityW y nodata) penv llas robust)
      ∧ (ws2dwcvpScalarM wsId yC (validityW yC 9999) (1 / 2) [0] false).2 ≠
        (ws2dwcvpM wsId yC 9999 (1 / 2) [0] false).2 := by
  constructor
  · intro F y nodata penv llas robust h
    unfold ws2dwcvpM ws2dwcvpScalarM
    rw [if_pos h, validityW_sum]
  · have hvec : ws2dwcvpM wsId yC 9999 (1 / 2) [0] false = (yC, 0) := by
      unfold ws2dwcvpM
      rw [if_neg (by norm_num [countValid, yC])]
    rw [scalarC_lopt, hvec]
    norm_num

theorem c10_scalar_vs_vectorized_witness :
    5 < countValid [(1 : ℝ), 2, 3, 4, 5, 6] (-9999) ∧
      ws2dwcvpM wsId [(1 : ℝ), 2, 3, 4, 5, 6] (-9999) (1 / 2) [0] false =
        ws2dwcvpScalarM wsId [(1 : ℝ), 2, 3, 4, 5, 6]
          (validityW [(1 : ℝ), 2, 3, 4, 5, 6] (-9999)) (1 / 2) [0] false :=
  ⟨by norm_num [countValid],
   c10_scalar_vs_vectorized.1 wsId [(1 : ℝ), 2, 3, 4, 5, 6] (-9999) (1 / 2) [0] false
     (by norm_num [countValid])⟩

theorem sqrt3_sq : Real.sqrt 3 ^ 2 = 3 :=
  Real.sq_sqrt (by norm_num)

theorem sqrt3_nonneg : 0 ≤ Real.sqrt 3 :=
  Real.sqrt_nonneg 3

theorem sqrt3_lt_two : Real.sqrt 3 < 2 := by
  nlinarith [sqrt3_sq, sqrt3_nonneg]

theorem dEigs6_eq :
    dEigs 6 = [1e-15, Real.sqrt 3 - 2, -1, -2, -3, -(Real.sqrt 3) - 2] := by
  have hc1 : Real.cos ((1 : ℝ) * Real.pi / 6) = Real.sqrt 3 / 2 := by
    rw [show (1 : ℝ) * Real.pi / 6 = Real.pi / 6 by ring, Real.cos_pi_div_six]
  have hc2 : Real.cos ((2 : ℝ) * Real.pi / 6) = 1 / 2 := by
    rw [show (2 : ℝ) * Real.pi / 6 = Real.pi / 3 by ring, Real.cos_pi_div_three]
  have hc3 : Real.cos ((3 : ℝ) * Real.pi / 6) = 0 := by
    rw [show (3 : ℝ) * Real.pi / 6 = Real.pi / 2 by ring, Real.cos_pi_div_two]
  have hc4 : Real.cos ((4 : ℝ) * Real.pi / 6) = -(1 / 2) := by
    rw [show (4 : ℝ) * Real.pi / 6 = Real.pi - Real.pi / 3 by ring, Real.cos_pi_sub,
      Real.cos_pi_div_three]
  have hc5 : Real.cos ((5 : ℝ) * Real.pi / 6) = -(Real.sqrt 3 / 2) := by
    rw [show (5 : ℝ) * Real.pi / 6 = Real.pi - Real.pi / 6 by ring, Real.cos_pi_sub,
      Real.cos_pi_div_six]
  unfold dEigs
  rw [show List.range 6 = [0, 1, 2, 3, 4, 5] from rfl]
  simp only [List.map_cons, List.map_nil, Nat.cast_ofNat, Nat.cast_one, Nat.cast_zero]
  norm_num [hc1, hc2, hc3, hc4, hc5]
  constructor
  · ring
  · ring

theorem trH_onesA_bounds :
    27 / 10 < trH [1, 1, 1, 1, 1, 1] 1 (dEigs 6) ∧
      trH [1, 1, 1, 1, 1, 1] 1 (dEigs 6) < 14 / 5 := by
  rw [dEigs6_eq]
  simp only [trH, gammaList, List.zipWith_cons_cons, List.zipWith_nil_right,
    List.sum_cons, List.sum_nil]
  have h2 : Real.sqrt 3 < 2 := sqrt3_lt_two
  have h0 : 0 ≤ Real.sqrt 3 := sqrt3_nonneg
  have hd1 : (1 : ℝ) + 1 * (-1 * (Real.sqrt 3 - 2)) ^ 2 = 8 - 4 * Real.sqrt 3 := by
    linear_combination sqrt3_sq
  have hd5 : (1 : ℝ) + 1 * (-1 * (-(Real.sqrt 3) - 2)) ^ 2 = 8 + 4 * Real.sqrt 3 := by
    linear_combination sqrt3_sq
  rw [hd1, hd5]
  have hne1 : (8 : ℝ) - 4 * Real.sqrt 3 ≠ 0 := by nlinarith
  have hne5 : (8 : ℝ) + 4 * Real.sqrt 3 ≠ 0 := by nlinarith
  have hpair : 1 / (8 - 4 * Real.sqrt 3) + 1 / (8 + 4 * Real.sqrt 3) = 1 := by
    field_simp
    nlinarith [sqrt3_sq]
  constructor
  · nlinarith [hpair]
  · nlinarith [hpair]

theorem trH_itOneA_bounds :
    17 / 10 < trH [1, 0, 1, 1, 1, 0] 1 (dEigs 6) ∧
      trH [1, 0, 1, 1, 1, 0] 1 (dEigs 6) < 9 / 5 := by
  rw [dEigs6_eq]
  simp only [trH, gammaList, List.zipWith_cons_cons, List.zipWith_nil_right,
    List.sum_cons, List.sum_nil, zero_div]
  norm_num

theorem crushA :
    |(-100 : ℝ) / (1.4826 * 2 * Real.sqrt (1 - trH [1, 1, 1, 1, 1, 1] 1 (dEigs 6) / 6)) /
        4.685| > 1 := by
  have htr := trH_onesA_bounds
  have hs0 : (0 : ℝ) < 1 - trH [1, 1, 1, 1, 1, 1] 1 (dEigs 6) / 6 := by
    nlinarith [htr.2]
  have hs1 : (1 : ℝ) - trH [1, 1, 1, 1, 1, 1] 1 (dEigs 6) / 6 ≤ 1 := by
    nlinarith [htr.1]
  have hq0 : 0 < Real.sqrt (1 - trH [1, 1, 1, 1, 1, 1] 1 (dEigs 6) / 6) :=
    Real.sqrt_pos.mpr hs0
  have hq1 : Real.sqrt (1 - trH [1, 1, 1, 1, 1, 1] 1 (dEigs 6) / 6) ≤ 1 :=
    Real.sqrt_le_one.mpr hs1
  have hA : (0 : ℝ) < 1.4826 * 2 * Real.sqrt (1 - trH [1, 1, 1, 1, 1, 1] 1 (dEigs 6) / 6) := by
    nlinarith [hq0]
  rw [div_div, abs_div]
  rw [abs_of_pos (by positivity :
    (0 : ℝ) < 1.4826 * 2 * Real.sqrt (1 - trH [1, 1, 1, 1, 1, 1] 1 (dEigs 6) / 6) * 4.685)]
  rw [show |(-100 : ℝ)| = 100 by norm_num]
  rw [gt_iff_lt, lt_div_iff (by positivity)]
  nlinarith [hq1, hq0]

theorem rwUpdateA :
    robustUpdate yA fitA0 [1, 1, 1, 1, 1, 1] 1 (dEigs 6) (List.replicate 6 1) 6 =
      [1, 0, 1, 1, 1, 0] := by
  simp only [robustUpdate]
  have hr : List.zipWith (fun a b : ℝ => a - b) yA fitA0 = [1, -100, 2, 3, 4, -100] := by
    norm_num [yA, fitA0]
  rw [hr]
  have hsub : (([(1 : ℝ), -100, 2, 3, 4, -100]).zip (List.replicate 6 (1 : ℝ))).filterMap
      (fun q => if q.2 ≠ 0 then some q.1 else none) = [(1 : ℝ), -100, 2, 3, 4, -100] := by
    norm_num [List.replicate, List.zip_cons_cons, List.filterMap_cons]
  rw [hsub]
  have hmed : medianL [(1 : ℝ), -100, 2, 3, 4, -100] = 3 / 2 := by
    norm_num [medianL, sortR, sortIns]
  rw [hmed]
  have habs : ([(1 : ℝ), -100, 2, 3, 4, -100]).map (fun v => |v - 3 / 2|) =
      [1 / 2, 203 / 2, 1 / 2, 3 / 2, 5 / 2, 203 / 2] := by
    norm_num [abs_of_nonneg, abs_of_nonpos]
  rw [habs]
  have hmad : medianL [(1 : ℝ) / 2, 203 / 2, 1 / 2, 3 / 2, 5 / 2, 203 / 2] = 2 := by
    norm_num [medianL, sortR, sortIns]
  rw [hmad]
  simp only [List.map_cons, List.map_nil]
  rw [if_neg (show ¬ ((-100 : ℝ) > 0) by norm_num)]
  rw [if_pos crushA]
  norm_num

theorem gcvScoreA0_lt : gcvScore wsA yA [1, 1, 1, 1, 1, 1] (dEigs 6) 1 < 12000 := by
  unfold gcvScore
  rw [show wsA yA 1 [1, 1, 1, 1, 1, 1] = fitA0 from by simp [wsA]]
  rw [show wsseOf [1, 1, 1, 1, 1, 1] yA fitA0 = 20030 from by
    norm_num [wsseOf, yA, fitA0, Real.one_rpow]]
  have htr := trH_onesA_bounds
  have hden : gcvDenom [1, 1, 1, 1, 1, 1] (trH [1, 1, 1, 1, 1, 1] 1 (dEigs 6)) >
      384 / 225 := by
    unfold gcvDenom
    rw [show ([(1 : ℝ), 1, 1, 1, 1, 1]).sum = 6 from by norm_num]
    nlinarith [htr.2, sq_nonneg (1 - trH [1, 1, 1, 1, 1, 1] 1 (dEigs 6) / 6 - 8 / 15)]
  rw [div_lt_iff (by linarith)]
  nlinarith [hden]

theorem scanA0 :
    scanGrid wsA yA [1, 1, 1, 1, 1, 1] (dEigs 6) ⟨(1e15, 0), List.replicate 6 0⟩ [1] =
      ⟨(gcvScore wsA yA [1, 1, 1, 1, 1, 1] (dEigs 6) 1, 1), fitA0⟩ := by
  rw [scanGrid_singleton]
  rw [scanStep_eq_pos _ _ _ _ _ _ (by
    show gcvScore wsA yA [1, 1, 1, 1, 1, 1] (dEigs 6) 1 < (1e15 : ℝ)
    have := gcvScoreA0_lt
    linarith)]
  rw [show wsA yA 1 [1, 1, 1, 1, 1, 1] = fitA0 from by simp [wsA]]

theorem wTempA0_eq :
    wTempOf (validityW yA (-9999)) (initState 6) = [1, 1, 1, 1, 1, 1] := by
  norm_num [wTempOf, validityW, yA, initState, List.replicate]

theorem paramsA_nR : paramsA.nR = 6 := by
  norm_num [paramsA, countValid, yA]

theorem stateA1_r_weights : (iterState paramsA 1).r_weights = [1, 0, 1, 1, 1, 0] := by
  have h1 : iterState paramsA 1 = robustIter paramsA 0 (initState paramsA.y.length) := rfl
  rw [h1, robustIter_r_weights, if_pos (show paramsA.robust = true from rfl)]
  rw [show paramsA.y = yA from rfl, show paramsA.ws2dF = wsA from rfl,
    show paramsA.w = validityW yA (-9999) from rfl, show paramsA.llas = [(0 : ℝ)] from rfl]
  rw [show yA.length = 6 from rfl]
  rw [initState_history, initState_gcv_temp, initState_curve, initState_r_weights]
  rw [iterGrid_zero_exp _ 0 (by omega), wTempA0_eq, scanA0, paramsA_nR]
  exact rwUpdateA

theorem stateA1_gcv :
    (iterState paramsA 1).gcv_temp = (gcvScore wsA yA [1, 1, 1, 1, 1, 1] (dEigs 6) 1, 1) := by
  have h1 : iterState paramsA 1 = robustIter paramsA 0 (initState paramsA.y.length) := rfl
  rw [h1, robustIter_gcv_temp]
  rw [show paramsA.y = yA from rfl, show paramsA.ws2dF = wsA from rfl,
    show paramsA.w = validityW yA (-9999) from rfl, show paramsA.llas = [(0 : ℝ)] from rfl]
  rw [show yA.length = 6 from rfl]
  rw [initState_history, initState_gcv_temp, initState_curve]
  rw [iterGrid_zero_exp _ 0 (by omega), wTempA0_eq, scanA0]

theorem stateA1_curve : (iterState paramsA 1).curve = fitA0 := by
  have h1 : iterState paramsA 1 = robustIter paramsA 0 (initState paramsA.y.length) := rfl
  rw [h1, robustIter_curve]
  rw [show paramsA.y = yA from rfl, show paramsA.ws2dF = wsA from rfl,
    show paramsA.w = validityW yA (-9999) from rfl, show paramsA.llas = [(0 : ℝ)] from rfl]
  rw [show yA.length = 6 from rfl]
  rw [initState_history, initState_gcv_temp, initState_curve]
  rw [iterGrid_zero_exp _ 0 (by omega), wTempA0_eq, scanA0]

theorem stateA1_hist :
    (iterState paramsA 1).history =
      [(gcvScore wsA yA [1, 1, 1, 1, 1, 1] (dEigs 6) 1, 1)] := by
  have h1 : iterState paramsA 1 = robustIter paramsA 0 (initState paramsA.y.length) := rfl
  rw [h1, robustIter_history]
  rw [show paramsA.y = yA from rfl, show paramsA.ws2dF = wsA from rfl,
    show paramsA.w = validityW yA (-9999) from rfl, show paramsA.llas = [(0 : ℝ)] from rfl]
  rw [show yA.length = 6 from rfl]
  rw [initState_history, initState_gcv_temp, initState_curve]
  rw [iterGrid_zero_exp _ 0 (by omega), wTempA0_eq, scanA0]
  rfl

theorem wTempA1_eq :
    wTempOf (validityW yA (-9999)) (iterState paramsA 1) = [1, 0, 1, 1, 1, 0] := by
  unfold wTempOf
  rw [stateA1_r_weights]
  norm_num [validityW, yA]

theorem gcvScoreA1_bounds :
    12000 < gcvScore wsA yA [1, 0, 1, 1, 1, 0] (dEigs 6) 1 ∧
      gcvScore wsA yA [1, 0, 1, 1, 1, 0] (dEigs 6) 1 < 1e15 := by
  unfold gcvScore
  rw [show wsA yA 1 [1, 0, 1, 1, 1, 0] = fitA1 from by norm_num [wsA]]
  rw [show wsseOf [1, 0, 1, 1, 1, 0] yA fitA1 = 4000000 from by
    norm_num [wsseOf, yA, fitA1, Real.one_rpow]]
  have htr := trH_itOneA_bounds
  have hdenU : gcvDenom [1, 0, 1, 1, 1, 0] (trH [1, 0, 1, 1, 1, 0] 1 (dEigs 6)) <
      27 / 20 := by
    unfold gcvDenom
    rw [show ([(1 : ℝ), 0, 1, 1, 1, 0]).sum = 4 from by norm_num]
    nlinarith [htr.1, htr.2]
  have hdenL : gcvDenom [1, 0, 1, 1, 1, 0] (trH [1, 0, 1, 1, 1, 0] 1 (dEigs 6)) >
      6 / 5 := by
    unfold gcvDenom
    rw [show ([(1 : ℝ), 0, 1, 1, 1, 0]).sum = 4 from by norm_num]
    nlinarith [htr.1, htr.2,
      sq_nonneg (1 - trH [1, 0, 1, 1, 1, 0] 1 (dEigs 6) / 4 - 11 / 20)]
  constructor
  · rw [lt_div_iff (by linarith)]
    nlinarith [hdenU]
  · rw [div_lt_iff (by linarith)]
    nlinarith [hdenL]

theorem scanA1 :
    scanGrid wsA yA [1, 0, 1, 1, 1, 0] (dEigs 6)
        ⟨(gcvScore wsA yA [1, 1, 1, 1, 1, 1] (dEigs 6) 1, 1), fitA0⟩ [1] =
      ⟨(gcvScore wsA yA [1, 1, 1, 1, 1, 1] (dEigs 6) 1, 1), fitA0⟩ := by
  rw [scanGrid_singleton]
  exact scanStep_eq_neg _ _ _ _ _ _ (by
    show ¬ gcvScore wsA yA [1, 0, 1, 1, 1, 0] (dEigs 6) 1 <
      gcvScore wsA yA [1, 1, 1, 1, 1, 1] (dEigs 6) 1
    have h0 := gcvScoreA0_lt
    have h1 := gcvScoreA1_bounds.1
    linarith)

theorem stateA2_hist :
    (iterState paramsA 2).history =
      [(gcvScore wsA yA [1, 1, 1, 1, 1, 1] (dEigs 6) 1, 1),
        (gcvScore wsA yA [1, 1, 1, 1, 1, 1] (dEigs 6) 1, 1)] := by
  have h2 : iterState paramsA 2 = robustIter paramsA 1 (iterState paramsA 1) := rfl
  rw [h2, robustIter_history]
  rw [show paramsA.y = yA from rfl, show paramsA.ws2dF = wsA from rfl,
    show paramsA.w = validityW yA (-9999) from rfl, show paramsA.llas = [(0 : ℝ)] from rfl]
  rw [show yA.length = 6 from rfl]
  rw [stateA1_hist, stateA1_gcv, stateA1_curve, wTempA1_eq]
  rw [iterGrid_zero_exp _ 1 (by omega), scanA1]
  rfl

/-- C3 counterexample: at scenario A, the history entry recorded for robust
iteration 1 carries iteration 0's Best-GCV score; a fresh scan (reset
record) of iteration 1's own grid and fitting weights has a different,
larger minimum score, so the recorded entry is not the minimum over only
that iteration's own scanned candidates. -/
theorem c3_counterexample :
    ((iterState paramsA 2).history.getD 1 (0, 0)).1 ≠
      (scanGrid paramsA.ws2dF paramsA.y (wTempOf paramsA.w (iterState paramsA 1))
        (dEigs paramsA.y.length) ⟨(1e15, 0), List.replicate paramsA.y.length 0⟩
        (iterGrid paramsA.llas (iterState paramsA 1).history 1)).best.1 := by
  rw [stateA2_hist]
  rw [show paramsA.y = yA from rfl, show paramsA.ws2dF = wsA from rfl,
    show paramsA.w = validityW yA (-9999) from rfl, show paramsA.llas = [(0 : ℝ)] from rfl]
  rw [show yA.length = 6 from rfl]
  rw [stateA1_hist, wTempA1_eq, iterGrid_zero_exp _ 1 (by omega)]
  rw [scanGrid_singleton]
  rw [scanStep_eq_pos _ _ _ _ _ _ (by
    show gcvScore wsA yA [1, 0, 1, 1, 1, 0] (dEigs 6) 1 < (1e15 : ℝ)
    exact gcvScoreA1_bounds.2)]
  simp only [List.getD_cons_succ, List.getD_cons_zero]
  show gcvScore wsA yA [1, 1, 1, 1, 1, 1] (dEigs 6) 1 ≠
    gcvScore wsA yA [1, 0, 1, 1, 1, 0] (dEigs 6) 1
  exact ne_of_lt (lt_trans gcvScoreA0_lt gcvScoreA1_bounds.1)

theorem c5_later_iterations_single_grid_witness :
    (1 : ℕ) < 2 ∧ ((iterState paramsA 2).history.getD 1 (0, 0)).2 ≠ 0 ∧
      iterGrid paramsA.llas (iterState paramsA 2).history 2 =
        [((iterState paramsA 2).history.getD 1 (0, 0)).2] := by
  have hpen : ((iterState paramsA 2).history.getD 1 (0, 0)).2 = 1 := by
    rw [stateA2_hist]
    simp
  refine ⟨by norm_num, by rw [hpen]; norm_num, ?_⟩
  exact (c5_later_iterations_single_grid paramsA 2).2 (by norm_num)
    (by rw [hpen]; norm_num)

theorem c7_invalid_fitting_weight_zero_witness :
    paramsB.w = validityW paramsB.y 9999 ∧
      (0 : ℕ) < paramsB.y.length ∧
      paramsB.y.getD 0 0 = 9999 ∧
      (wTempOf paramsB.w (robustIter paramsB 0 (initState 7))).getD 0 0 = 0 :=
  ⟨rfl, by norm_num [paramsB, yB], by norm_num [paramsB, yB],
   c7_invalid_fitting_weight_zero paramsB 9999 rfl 0 (initState 7) 0
     (by norm_num [paramsB, yB]) (by norm_num [paramsB, yB])⟩

end WCVP
